import Mathlib

/-!
Shallow embedding of the candidate-lifecycle core of the Recruitment-AI
backend (Express + Mongoose), together with proofs about the claims of the
natural-language specification.

Embedded source files:
- `backend/models/Candidate.js`: the candidate document schema and its
  mutation methods (`addHistoryEntry`, `addComment`, `updateStage`,
  `archive`, `unarchive`).
- `backend/models/Organization.js`: the organization schema (stage list,
  subscription) and stage methods (`addStage`, `reorderStages`).
- `backend/routes/candidates.js` (= `backend/middleware/auth.js` bundle,
  second file): the candidate HTTP handlers (list, get, create, update,
  stage change, archive toggle).
- `backend/routes/settings.js`: the stage settings handlers
  (add/update/delete/reorder).
- `backend/routes/files.js`: the test-result evidence upload handler.

Modelling conventions: Mongo ObjectIds become `Nat`; `Date` timestamps
become `Nat` and are passed explicitly (`now`); nullable fields become
`Option`; document mutation followed by `save()` becomes a pure function
returning the new document; the HTTP layer's error responses become an
explicit error type.  Socket.io broadcasting, logging and the filesystem
are side channels with no effect on the persisted documents and are not
modelled.
-/

/-- One element of the `history` array of a candidate
(`historyEntrySchema` in `Candidate.js`): `{user, action, details?, timestamp}`. -/
structure HistoryEntry where
  user : String
  action : String
  details : Option String
  timestamp : Nat
deriving DecidableEq, Repr

/-- One element of the `comments` array (`commentSchema`). -/
structure CandidateComment where
  user : String
  text : String
  timestamp : Nat
deriving DecidableEq, Repr

/-- The `status` enum of `testResultSchema`:
`['not_sent', 'pending', 'passed', 'failed', 'review']`. -/
inductive TestStatus
  | not_sent
  | pending
  | passed
  | failed
  | review
deriving DecidableEq, Repr

/-- The `file` sub-document of a test result: `{name, type, url, uploadedAt}`. -/
structure TestFile where
  name : String
  mimeType : String
  url : String
  uploadedAt : Nat
deriving DecidableEq, Repr

/-- One element of the `testResults` array (`testResultSchema`). -/
structure TestResult where
  testId : String
  status : TestStatus
  score : Option Nat
  notes : Option String
  file : Option TestFile
  aiSummary : Option String
deriving DecidableEq, Repr

/-- A candidate document (`candidateSchema` in `Candidate.js`).  `id` is the
Mongo `_id`; `organization` is the owning tenant's id. -/
structure Candidate where
  id : Nat
  organization : Nat
  name : String
  email : String
  phone : String
  position : String
  stage : String
  source : String
  rating : Nat
  history : List HistoryEntry
  comments : List CandidateComment
  testResults : List TestResult
  isArchived : Bool
  archivedAt : Option Nat
  archivedBy : Option Nat
  lastModifiedBy : Option Nat
  hasResume : Bool
  resumeUrl : Option String
deriving DecidableEq, Repr

/-- The acting user (`req.user`): only the fields the embedded code reads. -/
structure AppUser where
  id : Nat
  name : String
deriving DecidableEq, Repr

/-- `candidateSchema.methods.addHistoryEntry`: pushes
`{user: user.name, action, details, timestamp: new Date()}` onto `history`. -/
def Candidate.addHistoryEntry (c : Candidate) (u : AppUser) (action : String)
    (details : Option String) (now : Nat) : Candidate :=
  { c with history :=
      c.history ++ [{ user := u.name, action := action, details := details, timestamp := now }] }

/-- `candidateSchema.methods.addComment`: pushes
`{user: user.name, text, timestamp: new Date()}` onto `comments`. -/
def Candidate.addCandidateComment (c : Candidate) (u : AppUser) (text : String)
    (now : Nat) : Candidate :=
  { c with comments :=
      c.comments ++ [{ user := u.name, text := text, timestamp := now }] }

/-- The history message built by `updateStage`:
`` `مرحله از "${oldStage}" به "${newStage}" تغییر کرد` ``. -/
def stageChangeMessage (oldStage newStage : String) : String :=
  s!"مرحله از \"{oldStage}\" به \"{newStage}\" تغییر کرد"

/-- `candidateSchema.methods.updateStage`: records the old stage, sets
`stage = newStage` and `lastModifiedBy`, then appends one history entry via
`addHistoryEntry` (its `details` argument is omitted in the source). The
method performs no check of `newStage` against the tenant's stage list. -/
def Candidate.updateStage (c : Candidate) (newStage : String) (u : AppUser)
    (now : Nat) : Candidate :=
  let oldStage := c.stage
  Candidate.addHistoryEntry
    { c with stage := newStage, lastModifiedBy := some u.id }
    u (stageChangeMessage oldStage newStage) none now

/-- `candidateSchema.methods.archive`: sets `isArchived = true`,
`archivedAt = now`, `archivedBy = user._id`, `stage = 'archived'`, then
appends one history entry. -/
def Candidate.archive (c : Candidate) (u : AppUser) (now : Nat) : Candidate :=
  Candidate.addHistoryEntry
    { c with isArchived := true, archivedAt := some now, archivedBy := some u.id,
             stage := "archived" }
    u "متقاضی آرشیو شد" none now

/-- `candidateSchema.methods.unarchive`: sets `isArchived = false`, clears
`archivedAt`/`archivedBy`, sets `stage = 'inbox'`, then appends one history
entry.  The pre-archive stage is not restored. -/
def Candidate.unarchive (c : Candidate) (u : AppUser) (now : Nat) : Candidate :=
  Candidate.addHistoryEntry
    { c with isArchived := false, archivedAt := none, archivedBy := none,
             stage := "inbox" }
    u "متقاضی از آرشیو خارج شد" none now

/-- The invariant claimed in the spec's data model:
`stage == "archived"` iff `isArchived == true`. -/
def stageArchivedInv (c : Candidate) : Prop :=
  c.stage = "archived" ↔ c.isArchived = true

instance (c : Candidate) : Decidable (stageArchivedInv c) := by
  unfold stageArchivedInv
  infer_instance

/-- One key/value pair of the JSON body of `PUT /api/candidates/:id`.  The
handler iterates `Object.keys(req.body)` and assigns `candidate[key] =
req.body[key]` unless the key is `history`, `comments`, `_id` or
`organization`; each constructor is one such key with its value. -/
inductive PatchField
  | name (v : String)
  | email (v : String)
  | phone (v : String)
  | position (v : String)
  | stage (v : String)
  | source (v : String)
  | rating (v : Nat)
  | isArchived (v : Bool)
  | hasResume (v : Bool)
  | resumeUrl (v : Option String)
  | history (v : List HistoryEntry)
  | comments (v : List CandidateComment)
  | mongoId (v : Nat)
  | organization (v : Nat)
deriving DecidableEq, Repr

/-- One iteration of the `Object.keys(req.body).forEach` loop of
`PUT /api/candidates/:id`: the guard
`key !== 'history' && key !== 'comments' && key !== '_id' && key !== 'organization'`
makes the last four constructors no-ops. -/
def applyPatchField (c : Candidate) : PatchField → Candidate
  | .name v => { c with name := v }
  | .email v => { c with email := v }
  | .phone v => { c with phone := v }
  | .position v => { c with position := v }
  | .stage v => { c with stage := v }
  | .source v => { c with source := v }
  | .rating v => { c with rating := v }
  | .isArchived v => { c with isArchived := v }
  | .hasResume v => { c with hasResume := v }
  | .resumeUrl v => { c with resumeUrl := v }
  | .history _ => c
  | .comments _ => c
  | .mongoId _ => c
  | .organization _ => c

/-- The mutation performed by `PUT /api/candidates/:id` once the candidate
has been found: apply every body key through the whitelist loop, set
`lastModifiedBy`, and push one `'اطلاعات ویرایش شد'` ("edited") history
entry, unconditionally. -/
def updateCandidate (c : Candidate) (patch : List PatchField) (u : AppUser)
    (now : Nat) : Candidate :=
  let c1 := patch.foldl applyPatchField c
  { c1 with
      lastModifiedBy := some u.id,
      history := c1.history ++
        [{ user := u.name, action := "اطلاعات ویرایش شد", details := none, timestamp := now }] }

/-- Helper mirroring the mutation of the found element in
`POST /api/files/test-result/:candidateId/:testId`: `testResults.find(...)`
returns the first entry with the given `testId`, and only that entry's
`file` field is overwritten. -/
def setFileOnFirst (tid : String) (f : TestFile) : List TestResult → List TestResult
  | [] => []
  | t :: ts =>
    if t.testId == tid then { t with file := some f } :: ts
    else t :: setFileOnFirst tid f ts

/-- The mutation performed by `POST /api/files/test-result/:candidateId/:testId`
once the candidate has been found and the file stored: if an entry for
`testId` exists, set its `file` descriptor (its `status` is not touched);
otherwise push a new entry `{testId, status: 'review', file}`. -/
def attachTestEvidence (c : Candidate) (tid : String) (f : TestFile) : Candidate :=
  match c.testResults.find? (fun t => t.testId == tid) with
  | some _ => { c with testResults := setFileOnFirst tid f c.testResults }
  | none =>
      { c with testResults := c.testResults ++
          [{ testId := tid, status := .review, score := none, notes := none,
             file := some f, aiSummary := none }] }

/-- One element of the `stages` array of an organization (`stageSchema` in
`Organization.js`): `{id, title, isCore, color, order}`. -/
structure StageDef where
  id : String
  title : String
  isCore : Bool
  color : Option String
  order : Nat
deriving DecidableEq, Repr

/-- An organization document, restricted to the fields the embedded stage
and quota logic reads. -/
structure Organization where
  id : Nat
  stages : List StageDef
  maxCandidates : Nat
deriving DecidableEq, Repr

/-- The default stage list of `organizationSchema` (ids and `isCore` flags
as in the source; titles are the Persian defaults). -/
def defaultStages : List StageDef :=
  [ { id := "inbox", title := "صندوق ورودی", isCore := true, color := none, order := 0 },
    { id := "screening", title := "غربالگری", isCore := true, color := none, order := 1 },
    { id := "interview-1", title := "مصاحبه اول", isCore := true, color := none, order := 2 },
    { id := "interview-2", title := "مصاحبه دوم", isCore := false, color := none, order := 3 },
    { id := "offer", title := "ارائه پیشنهاد", isCore := true, color := none, order := 4 },
    { id := "hired", title := "استخدام شده", isCore := true, color := none, order := 5 },
    { id := "rejected", title := "رد شده", isCore := true, color := none, order := 6 },
    { id := "archived", title := "آرشیو", isCore := true, color := none, order := 7 } ]

/-- Recursion underlying `organizationSchema.methods.reorderStages`: for each
id of `stageIds` (with its position `i`), look the stage up in the original
list; if found, set its `order` to the position and keep it, otherwise skip
the id.  Stages whose id is not listed are dropped. -/
def reorderStageList (stages : List StageDef) : List String → Nat → List StageDef
  | [], _ => []
  | sid :: rest, i =>
    match stages.find? (fun s => s.id == sid) with
    | some s => { s with order := i } :: reorderStageList stages rest (i + 1)
    | none => reorderStageList stages rest (i + 1)

/-- `organizationSchema.methods.reorderStages`: replaces `stages` with the
reordered list built from `stageIds`. -/
def Organization.reorderStages (org : Organization) (stageIds : List String) :
    Organization :=
  { org with stages := reorderStageList org.stages stageIds 0 }

/-- The error outcomes of the embedded HTTP handlers, tagged with the
status codes the handlers use (404, 403, 400). -/
inductive ApiError
  | notFound (message : String)
  | forbidden (message : String)
  | conflict (message : String)
deriving DecidableEq, Repr

/-- Update of the first stage with a matching id, mirroring
`organization.stages.find(...)` followed by in-place mutation in
`PUT /api/settings/stages/:id`.  The source guards each assignment by JS
truthiness (`if (req.body.title) ...`), modelled as `Option`. -/
def setStageFieldsOnFirst (sid : String) (title color : Option String) :
    List StageDef → List StageDef
  | [] => []
  | s :: ss =>
    if s.id == sid then
      (match title, color with
       | some t, some cl => { s with title := t, color := some cl }
       | some t, none => { s with title := t }
       | none, some cl => { s with color := some cl }
       | none, none => s) :: ss
    else s :: setStageFieldsOnFirst sid title color ss

/-- `PUT /api/settings/stages/:id` after the organization has been found:
404 if no stage has the id, 403 if the stage is core, otherwise update the
title/color of the first matching stage and save. -/
def handleStageUpdate (org : Organization) (sid : String)
    (title color : Option String) : Except ApiError Organization :=
  match org.stages.find? (fun s => s.id == sid) with
  | none => .error (.notFound "مرحله یافت نشد")
  | some s =>
    if s.isCore then .error (.forbidden "مراحل اصلی قابل ویرایش نیستند")
    else .ok { org with stages := setStageFieldsOnFirst sid title color org.stages }

/-- The conflict message of the stage delete handler:
`` `${candidatesInStage} متقاضی در این مرحله وجود دارد. ...` ``. -/
def stageInUseMessage (n : Nat) : String :=
  s!"{n} متقاضی در این مرحله وجود دارد. ابتدا آنها را به مرحله دیگری منتقل کنید."

/-- `DELETE /api/settings/stages/:id` after the organization has been found:
404 if no stage has the id, 403 if the stage is core, 400 (conflict) if any
candidate of the organization currently occupies the stage
(`Candidate.countDocuments({organization, stage})`), otherwise filter the
stage out of the list and save.  `store` is the whole candidate collection. -/
def handleStageDelete (org : Organization) (store : List Candidate)
    (sid : String) : Except ApiError Organization :=
  match org.stages.find? (fun s => s.id == sid) with
  | none => .error (.notFound "مرحله یافت نشد")
  | some s =>
    if s.isCore then .error (.forbidden "مراحل اصلی قابل حذف نیستند")
    else
      let candidatesInStage :=
        (store.filter (fun c => c.organization == org.id && c.stage == sid)).length
      if candidatesInStage > 0 then
        .error (.conflict (stageInUseMessage candidatesInStage))
      else
        .ok { org with stages := org.stages.filter (fun s => !(s.id == sid)) }

/-- Lower-cased character sequence of a string (the effect of the `'i'`
option of the Mongo `$regex` filter on a literal pattern). -/
def lowerChars (s : String) : List Char := s.data.map Char.toLower

/-- Case-insensitive literal containment: the semantics of
`{$regex: needle, $options: 'i'}` for a pattern without regex
metacharacters, the document-store query primitive the list handler uses. -/
def containsCI (hay needle : String) : Bool :=
  (lowerChars hay).tails.any (fun t => (lowerChars needle).isPrefixOf t)

/-- The query parameters of `GET /api/candidates` (with their handler
defaults already applied: `page = 1`, `limit = 50`, `archived = false`). -/
structure ListQuery where
  stage : Option String
  position : Option String
  source : Option String
  search : Option String
  page : Nat
  limit : Nat
  archived : Bool
deriving DecidableEq, Repr

/-- The Mongo filter `queryObj` built by `GET /api/candidates`:
`organization`, `isArchived`, the optional `stage`/`position`/`source`
equality filters, and the `$or` of case-insensitive regex matches on
`name`/`email`/`phone` when `search` is present. -/
def matchesQuery (orgId : Nat) (q : ListQuery) (c : Candidate) : Bool :=
  c.organization == orgId &&
  c.isArchived == q.archived &&
  (match q.stage with | some s => c.stage == s | none => true) &&
  (match q.position with | some p => c.position == p | none => true) &&
  (match q.source with | some s => c.source == s | none => true) &&
  (match q.search with
   | some s => containsCI c.name s || containsCI c.email s || containsCI c.phone s
   | none => true)

/-- Ordered insertion, the helper of `sortByLe`. -/
def insertLe {α : Type} (le : α → α → Bool) (a : α) : List α → List α
  | [] => [a]
  | b :: bs => if le a b then a :: b :: bs else b :: insertLe le a bs

/-- Insertion sort: the model of the document store's `sort` primitive
(`.sort({[sortBy]: order})`), a stable reordering of the filtered documents
by a caller-chosen comparison. -/
def sortByLe {α : Type} (le : α → α → Bool) : List α → List α
  | [] => []
  | a :: as => insertLe le a (sortByLe le as)

/-- `GET /api/candidates`: filter the collection by `queryObj`, sort, skip
`(page - 1) * limit`, take `limit`, and compute `total` as
`countDocuments(queryObj)` over the same filter (not the page). Returns the
page of candidates and `total`. `le` is the comparison derived from
`sortBy`/`order`. -/
def listCandidates (store : List Candidate) (orgId : Nat) (q : ListQuery)
    (le : Candidate → Candidate → Bool) : List Candidate × Nat :=
  let filtered := store.filter (matchesQuery orgId q)
  let pageItems := ((sortByLe le filtered).drop ((q.page - 1) * q.limit)).take q.limit
  (pageItems, filtered.length)

/-- The response envelope of the embedded handlers, restricted to the parts
a client can observe on the wire: status code, `success`, `message`, and
the returned candidate if any. -/
structure GetResponse where
  status : Nat
  success : Bool
  message : Option String
  data : Option Candidate
deriving DecidableEq, Repr

/-- `Candidate.findOne({_id, organization})`: the first candidate matching
both the id and the requesting tenant. -/
def findCandidate (store : List Candidate) (orgId : Nat) (cid : Nat) :
    Option Candidate :=
  store.find? (fun c => c.id == cid && c.organization == orgId)

/-- `GET /api/candidates/:id`: 404 with the fixed message when `findOne`
returns nothing (id absent or owned by another tenant), 200 with the
candidate otherwise. -/
def handleGetCandidate (store : List Candidate) (orgId : Nat) (cid : Nat) :
    GetResponse :=
  match findCandidate store orgId cid with
  | none => { status := 404, success := false, message := some "متقاضی یافت نشد", data := none }
  | some c => { status := 200, success := true, message := none, data := some c }

/-- `PUT /api/candidates/:id/archive` after the candidate has been found:
if `candidate.isArchived` call `unarchive`, otherwise call `archive`;
returns the mutated candidate and the success message of the branch taken. -/
def handleArchiveToggle (c : Candidate) (u : AppUser) (now : Nat) :
    Candidate × String :=
  if c.isArchived then (c.unarchive u now, "متقاضی از آرشیو خارج شد")
  else (c.archive u now, "متقاضی آرشیو شد")

/-- A concrete unarchived candidate in the entry stage, used by witnesses
and counterexamples. -/
def cBase : Candidate :=
  { id := 1, organization := 10, name := "Ali Reza", email := "ali@example.com",
    phone := "0912", position := "dev", stage := "inbox", source := "LinkedIn",
    rating := 3, history := [], comments := [], testResults := [],
    isArchived := false, archivedAt := none, archivedBy := none,
    lastModifiedBy := none, hasResume := false, resumeUrl := none }

/-- A concrete acting user. -/
def uEx : AppUser := { id := 2, name := "Sara" }

/-- A concrete evidence file descriptor. -/
def fEx : TestFile :=
  { name := "report.pdf", mimeType := "application/pdf",
    url := "/uploads/10/file-1.pdf", uploadedAt := 7 }

/-- A test result already marked `passed`, with no evidence yet. -/
def trPassed : TestResult :=
  { testId := "t1", status := .passed, score := some 80, notes := none,
    file := none, aiSummary := none }

/-- A candidate whose `testResults` already holds a `passed` entry for `t1`. -/
def cWithPassedTest : Candidate := { cBase with testResults := [trPassed] }

/-- A candidate currently in the custom stage `screening`. -/
def cScreening : Candidate := { cBase with stage := "screening" }

/-- A candidate currently in the non-core stage `interview-2`. -/
def cInterview2 : Candidate := { cBase with stage := "interview-2" }

/-- A candidate of a different tenant (organization 99) with id 5. -/
def cOtherTenant : Candidate := { cBase with id := 5, organization := 99 }

/-- An archived candidate (invariant-satisfying starting point). -/
def cArchivedEx : Candidate :=
  { cBase with isArchived := true, stage := "archived",
               archivedAt := some 1, archivedBy := some 2 }

/-- A concrete organization with the default stage list. -/
def orgEx : Organization := { id := 10, stages := defaultStages, maxCandidates := 100 }

/-- The default `interview-2` stage definition (the only non-core default). -/
def stageInterview2 : StageDef :=
  { id := "interview-2", title := "مصاحبه دوم", isCore := false, color := none, order := 3 }

/-- The default `inbox` stage definition (core). -/
def stageInbox : StageDef :=
  { id := "inbox", title := "صندوق ورودی", isCore := true, color := none, order := 0 }

/-- A concrete second candidate not matching the search string `ali`. -/
def cBob : Candidate :=
  { cBase with id := 2, name := "Bob", email := "bob@x.com", phone := "0935" }

/-- A concrete candidate store for the list witness. -/
def storeEx : List Candidate := [cBase, cBob]

/-- A concrete list query searching for `ali`. -/
def qEx : ListQuery :=
  { stage := none, position := none, source := none, search := some "ali",
    page := 1, limit := 50, archived := false }

/-- A concrete sort comparison (ascending id). -/
def leEx : Candidate → Candidate → Bool := fun a b => decide (a.id ≤ b.id)

/-- Each patch-loop iteration leaves `_id`, `organization`, `history` and
`comments` untouched, whatever the key. -/
theorem applyPatchField_frame (c : Candidate) (f : PatchField) :
    (applyPatchField c f).id = c.id ∧
    (applyPatchField c f).organization = c.organization ∧
    (applyPatchField c f).history = c.history ∧
    (applyPatchField c f).comments = c.comments := by
  cases f <;> exact ⟨rfl, rfl, rfl, rfl⟩

/-- The whole patch loop leaves `_id`, `organization`, `history` and
`comments` untouched. -/
theorem foldl_applyPatchField_frame (patch : List PatchField) (c : Candidate) :
    (patch.foldl applyPatchField c).id = c.id ∧
    (patch.foldl applyPatchField c).organization = c.organization ∧
    (patch.foldl applyPatchField c).history = c.history ∧
    (patch.foldl applyPatchField c).comments = c.comments := by
  induction patch generalizing c with
  | nil => exact ⟨rfl, rfl, rfl, rfl⟩
  | cons f fs ih =>
    obtain ⟨h1, h2, h3, h4⟩ := ih (applyPatchField c f)
    obtain ⟨g1, g2, g3, g4⟩ := applyPatchField_frame c f
    exact ⟨h1.trans g1, h2.trans g2, h3.trans g3, h4.trans g4⟩

/-- If the first entry matching `tid` is `t0`, then after `setFileOnFirst`
the first entry matching `tid` is `t0` with only its `file` replaced. -/
theorem find?_setFileOnFirst (tid : String) (f : TestFile)
    (l : List TestResult) (t0 : TestResult)
    (h : l.find? (fun t => t.testId == tid) = some t0) :
    (setFileOnFirst tid f l).find? (fun t => t.testId == tid) =
      some { t0 with file := some f } := by
  induction l with
  | nil => simp at h
  | cons a as ih =>
    cases ha : (a.testId == tid) with
    | true =>
      simp only [List.find?_cons, ha] at h
      cases h
      rw [setFileOnFirst, if_pos ha]
      simp [List.find?_cons, ha]
    | false =>
      simp only [List.find?_cons, ha] at h
      rw [setFileOnFirst, if_neg (by simp [ha])]
      simp only [List.find?_cons, ha]
      exact ih h

/-- Membership in an ordered insertion. -/
theorem mem_insertLe {α : Type} (le : α → α → Bool) (a x : α) (l : List α) :
    x ∈ insertLe le a l ↔ x = a ∨ x ∈ l := by
  induction l with
  | nil => simp [insertLe]
  | cons b bs ih =>
    rw [insertLe]
    by_cases h : le a b = true
    · simp [h]
    · simp only [if_neg h, List.mem_cons, ih]
      tauto

/-- The sort primitive is a permutation as far as membership is concerned. -/
theorem mem_sortByLe {α : Type} (le : α → α → Bool) (x : α) (l : List α) :
    x ∈ sortByLe le l ↔ x ∈ l := by
  induction l with
  | nil => simp [sortByLe]
  | cons a as ih =>
    rw [sortByLe, mem_insertLe, ih, List.mem_cons]

/-- Every stage surviving `reorderStages` has its id in the submitted list. -/
theorem mem_reorderStageList (stages : List StageDef) (ids : List String)
    (i : Nat) (s : StageDef) (hs : s ∈ reorderStageList stages ids i) :
    s.id ∈ ids := by
  induction ids generalizing i with
  | nil => simp [reorderStageList] at hs
  | cons a as ih =>
    rw [reorderStageList] at hs
    cases hfind : stages.find? (fun t => t.id == a) with
    | none =>
      rw [hfind] at hs
      exact List.mem_cons_of_mem _ (ih _ hs)
    | some t =>
      rw [hfind] at hs
      rcases List.mem_cons.mp hs with h | h
      · have hta := List.find?_some hfind
        subst h
        simp only [List.mem_cons]
        left
        simpa using hta
      · exact List.mem_cons_of_mem _ (ih _ h)

/-- C2: for every candidate and every string `newStageId` — with no
hypothesis that the string appears in any tenant's stage list — the stage
transition sets `stage = newStageId` and appends exactly one history entry
recording the old and the new stage, regardless of the previous stage. -/
theorem updateStage_sets_stage_appends_one_history
    (c : Candidate) (newStageId : String) (u : AppUser) (now : Nat) :
    (c.updateStage newStageId u now).stage = newStageId ∧
    (c.updateStage newStageId u now).history =
      c.history ++ [{ user := u.name, action := stageChangeMessage c.stage newStageId,
                      details := none, timestamp := now }] :=
  ⟨rfl, rfl⟩

/-- C3 counterexample: `cBase` satisfies the `stage == "archived" ↔
isArchived` invariant, but one stage transition (an operation the claim
covers) to the string `"archived"` breaks it: the stage becomes
`"archived"` while `isArchived` stays `false`. -/
theorem stage_archived_invariant_cex :
    stageArchivedInv cBase ∧
    ¬ stageArchivedInv (cBase.updateStage "archived" uEx 5) := by
  constructor <;> decide

/-- C3 amended: `archive` and `unarchive` (re-)establish the invariant from
any starting candidate; the other operations do not preserve it (see the
counterexample). -/
theorem archive_unarchive_establish_invariant
    (c : Candidate) (u : AppUser) (now : Nat) :
    stageArchivedInv (c.archive u now) ∧ stageArchivedInv (c.unarchive u now) := by
  constructor
  · unfold stageArchivedInv Candidate.archive Candidate.addHistoryEntry
    simp
  · unfold stageArchivedInv Candidate.unarchive Candidate.addHistoryEntry
    simp

/-- C5: `archive` followed by `unarchive` always leaves `stage = "inbox"`
(the hard-coded entry stage), `isArchived = false`, and both archive fields
cleared; whenever the pre-archive stage was not `inbox`, the resulting
stage differs from it (the prior position is not restored). -/
theorem archive_then_unarchive_resets_stage
    (c : Candidate) (u₁ u₂ : AppUser) (t₁ t₂ : Nat) :
    ((c.archive u₁ t₁).unarchive u₂ t₂).stage = "inbox" ∧
    ((c.archive u₁ t₁).unarchive u₂ t₂).isArchived = false ∧
    ((c.archive u₁ t₁).unarchive u₂ t₂).archivedAt = none ∧
    ((c.archive u₁ t₁).unarchive u₂ t₂).archivedBy = none ∧
    (c.stage ≠ "inbox" → ((c.archive u₁ t₁).unarchive u₂ t₂).stage ≠ c.stage) := by
  refine ⟨rfl, rfl, rfl, rfl, ?_⟩
  intro h he
  exact h he.symm

/-- C5 witness: a candidate in `screening` ends in `inbox`, not back in
`screening`. -/
theorem archive_then_unarchive_resets_stage_witness :
    ((cScreening.archive uEx 1).unarchive uEx 2).stage = "inbox" ∧
    ((cScreening.archive uEx 1).unarchive uEx 2).stage ≠ cScreening.stage :=
  ⟨(archive_then_unarchive_resets_stage cScreening uEx uEx 1 2).1,
   (archive_then_unarchive_resets_stage cScreening uEx uEx 1 2).2.2.2.2 (by decide)⟩

/-- C7: for every candidate and every patch, the update handler leaves
`_id`, `organization`, and `comments` unchanged, and the final `history`
is the old one plus exactly one `'اطلاعات ویرایش شد'` ("edited") entry —
so a patch cannot inject history or comments, and the audit entry is
appended even for a patch that changes nothing. -/
theorem updateCandidate_frame_and_audit (c : Candidate)
    (patch : List PatchField) (u : AppUser) (now : Nat) :
    (updateCandidate c patch u now).id = c.id ∧
    (updateCandidate c patch u now).organization = c.organization ∧
    (updateCandidate c patch u now).comments = c.comments ∧
    (updateCandidate c patch u now).history =
      c.history ++ [{ user := u.name, action := "اطلاعات ویرایش شد",
                      details := none, timestamp := now }] := by
  obtain ⟨h1, h2, h3, h4⟩ := foldl_applyPatchField_frame patch c
  unfold updateCandidate
  refine ⟨h1, h2, h4, ?_⟩
  show (patch.foldl applyPatchField c).history ++ _ = _
  rw [h3]

/-- C10 counterexample: starting from an archived candidate, two successive
calls of the archive endpoint leave the candidate archived — refuting
"two successive calls never leave a candidate archived". -/
theorem archive_toggle_two_calls_cex :
    cArchivedEx.isArchived = true ∧
    (handleArchiveToggle (handleArchiveToggle cArchivedEx uEx 3).1 uEx 4).1.isArchived = true := by
  constructor <;> decide

/-- C10 amended: the endpoint is a toggle — it archives an unarchived
candidate (stage forced to `archived`) and unarchives an archived one
(stage reset to `inbox`, so it cannot re-archive an already-archived
candidate) — and two successive calls restore the original `isArchived`
value, so a candidate archived beforehand is archived again afterwards. -/
theorem archive_toggle_amended (c : Candidate) (u₁ u₂ : AppUser) (t₁ t₂ : Nat) :
    (c.isArchived = false →
       (handleArchiveToggle c u₁ t₁).1.isArchived = true ∧
       (handleArchiveToggle c u₁ t₁).1.stage = "archived") ∧
    (c.isArchived = true →
       (handleArchiveToggle c u₁ t₁).1.isArchived = false ∧
       (handleArchiveToggle c u₁ t₁).1.stage = "inbox") ∧
    (handleArchiveToggle (handleArchiveToggle c u₁ t₁).1 u₂ t₂).1.isArchived
      = c.isArchived := by
  cases hb : c.isArchived with
  | false =>
    simp [handleArchiveToggle, hb, Candidate.archive, Candidate.unarchive,
          Candidate.addHistoryEntry]
  | true =>
    simp [handleArchiveToggle, hb, Candidate.archive, Candidate.unarchive,
          Candidate.addHistoryEntry]

/-- C10 witness: toggling the unarchived `cBase` archives it. -/
theorem archive_toggle_amended_witness :
    (handleArchiveToggle cBase uEx 1).1.isArchived = true ∧
    (handleArchiveToggle cBase uEx 1).1.stage = "archived" :=
  (archive_toggle_amended cBase uEx uEx 1 2).1 (by decide)

/-- C1 counterexample: attaching evidence for `t1` to a candidate whose
`t1` result already exists with status `passed` leaves the status `passed`
— the upload handler only sets `status: 'review'` when it creates the
entry, refuting "sets the status to review unconditionally ... both when a
TestResult entry already exists and when it is created". -/
theorem attach_evidence_overrides_status_cex :
    ((attachTestEvidence cWithPassedTest "t1" fEx).testResults.find?
        (fun t => t.testId == "t1")).map TestResult.status = some TestStatus.passed ∧
    TestStatus.passed ≠ TestStatus.review := by
  constructor <;> decide

/-- C1 amended: attaching evidence sets `status = review` only when the
attach itself creates the `TestResult` entry; when an entry for the testId
already exists, only its `file` descriptor is replaced and its status —
whatever it was, including `passed`, `failed` or `pending` — is kept. -/
theorem attach_evidence_amended (c : Candidate) (tid : String) (f : TestFile) :
    (c.testResults.find? (fun t => t.testId == tid) = none →
       attachTestEvidence c tid f =
         { c with testResults := c.testResults ++
             [{ testId := tid, status := .review, score := none, notes := none,
                file := some f, aiSummary := none }] }) ∧
    (∀ t0, c.testResults.find? (fun t => t.testId == tid) = some t0 →
       (attachTestEvidence c tid f).testResults.find? (fun t => t.testId == tid) =
         some { t0 with file := some f }) := by
  constructor
  · intro h
    unfold attachTestEvidence
    rw [h]
  · intro t0 h
    unfold attachTestEvidence
    rw [h]
    exact find?_setFileOnFirst tid f c.testResults t0 h

/-- C1 witness: on `cBase` (no entries) attaching creates a `review` entry;
on `cWithPassedTest` attaching keeps the `passed` entry, file replaced. -/
theorem attach_evidence_amended_witness :
    attachTestEvidence cBase "t2" fEx =
      { cBase with testResults := cBase.testResults ++
          [{ testId := "t2", status := .review, score := none, notes := none,
             file := some fEx, aiSummary := none }] } ∧
    (attachTestEvidence cWithPassedTest "t1" fEx).testResults.find?
        (fun t => t.testId == "t1") = some { trPassed with file := some fEx } :=
  ⟨(attach_evidence_amended cBase "t2" fEx).1 (by decide),
   (attach_evidence_amended cWithPassedTest "t1" fEx).2 trPassed (by decide)⟩

/-- C4 counterexample: the default stage list contains the core stage
`inbox`, yet `reorderStages` with an id list omitting it removes it from
the stage list — refuting "reorderStages never removes a core stage". -/
theorem reorder_drops_core_stage_cex :
    orgEx.stages.any (fun s => s.id == "inbox" && s.isCore) = true ∧
    (orgEx.reorderStages ["screening"]).stages.any (fun s => s.id == "inbox") = false := by
  constructor <;> decide

/-- C4 amended: the stage update and stage delete handlers fail with a 403
ForbiddenError on a core stage, but `reorderStages` keeps only the stages
whose ids appear in the submitted list, so any stage — core included — not
listed is dropped. -/
theorem core_stage_protection_amended (org : Organization) (sid : String)
    (title color : Option String) (store : List Candidate) (s : StageDef)
    (hfind : org.stages.find? (fun t => t.id == sid) = some s)
    (hcore : s.isCore = true) :
    handleStageUpdate org sid title color =
      .error (.forbidden "مراحل اصلی قابل ویرایش نیستند") ∧
    handleStageDelete org store sid =
      .error (.forbidden "مراحل اصلی قابل حذف نیستند") ∧
    ∀ ids : List String, ∀ t ∈ (org.reorderStages ids).stages, t.id ∈ ids := by
  refine ⟨?_, ?_, ?_⟩
  · unfold handleStageUpdate
    rw [hfind]
    simp [hcore]
  · unfold handleStageDelete
    rw [hfind]
    simp [hcore]
  · intro ids t ht
    exact mem_reorderStageList org.stages ids 0 t ht

/-- C4 witness: concrete core-stage protection on the default stage list. -/
theorem core_stage_protection_amended_witness :
    handleStageUpdate orgEx "inbox" (some "x") none =
      .error (.forbidden "مراحل اصلی قابل ویرایش نیستند") ∧
    handleStageDelete orgEx [] "inbox" =
      .error (.forbidden "مراحل اصلی قابل حذف نیستند") :=
  ⟨(core_stage_protection_amended orgEx "inbox" (some "x") none [] stageInbox
      (by decide) (by decide)).1,
   (core_stage_protection_amended orgEx "inbox" (some "x") none [] stageInbox
      (by decide) (by decide)).2.1⟩

/-- C6: for the stage found under `sid` — if core, deletion fails with 403
ForbiddenError; if non-core with zero candidates of this organization in
the stage, deletion succeeds and no stage with that id remains; if
non-core with at least one such candidate, deletion fails with the 400
ConflictError (the only outcome is the error, so the stored stage list is
untouched). -/
theorem stage_delete_spec (org : Organization) (store : List Candidate)
    (sid : String) (s : StageDef)
    (hfind : org.stages.find? (fun t => t.id == sid) = some s) :
    (s.isCore = true →
       handleStageDelete org store sid =
         .error (.forbidden "مراحل اصلی قابل حذف نیستند")) ∧
    (s.isCore = false →
       (store.filter (fun c => c.organization == org.id && c.stage == sid)).length = 0 →
       handleStageDelete org store sid =
         .ok { org with stages := org.stages.filter (fun t => !(t.id == sid)) } ∧
       ∀ t ∈ (org.stages.filter (fun t => !(t.id == sid))), t.id ≠ sid) ∧
    (s.isCore = false →
       0 < (store.filter (fun c => c.organization == org.id && c.stage == sid)).length →
       handleStageDelete org store sid =
         .error (.conflict (stageInUseMessage
           (store.filter (fun c => c.organization == org.id && c.stage == sid)).length))) := by
  refine ⟨?_, ?_, ?_⟩
  · intro hcore
    unfold handleStageDelete
    rw [hfind]
    simp [hcore]
  · intro hcore hzero
    constructor
    · unfold handleStageDelete
      rw [hfind]
      simp [hcore, hzero]
    · intro t ht
      have h2 := (List.mem_filter.mp ht).2
      simpa using h2
  · intro hcore hpos
    unfold handleStageDelete
    rw [hfind]
    simp [hcore, hpos]

/-- C6 witness: on the default stage list, deleting the non-core
`interview-2` succeeds with an empty store, conflicts when a candidate
occupies it, and deleting the core `inbox` is forbidden. -/
theorem stage_delete_spec_witness :
    handleStageDelete orgEx [] "interview-2" =
      .ok { orgEx with stages := orgEx.stages.filter (fun t => !(t.id == "interview-2")) } ∧
    handleStageDelete orgEx [cInterview2] "interview-2" =
      .error (.conflict (stageInUseMessage
        (([cInterview2].filter
            (fun c => c.organization == orgEx.id && c.stage == "interview-2")).length))) ∧
    handleStageDelete orgEx [] "inbox" =
      .error (.forbidden "مراحل اصلی قابل حذف نیستند") :=
  ⟨((stage_delete_spec orgEx [] "interview-2" stageInterview2 (by decide)).2.1
      (by decide) (by decide)).1,
   (stage_delete_spec orgEx [cInterview2] "interview-2" stageInterview2
      (by decide)).2.2 (by decide) (by decide),
   (stage_delete_spec orgEx [] "inbox" stageInbox (by decide)).1 (by decide)⟩

/-- C8: when a search string is present, every candidate on the returned
page satisfies the case-insensitive name/email/phone containment filter,
the returned total is the count of all candidates matching the same filter
(search plus stage/position/source/archived conditions), and the total
does not depend on `page` or `limit`. -/
theorem list_search_spec (store : List Candidate) (orgId : Nat) (q : ListQuery)
    (le : Candidate → Candidate → Bool) (s : String) (hs : q.search = some s) :
    (∀ c ∈ (listCandidates store orgId q le).1,
        (containsCI c.name s || containsCI c.email s || containsCI c.phone s) = true) ∧
    (listCandidates store orgId q le).2 =
      (store.filter (matchesQuery orgId q)).length ∧
    (∀ p₁ l₁ p₂ l₂ : Nat,
        (listCandidates store orgId { q with page := p₁, limit := l₁ } le).2 =
        (listCandidates store orgId { q with page := p₂, limit := l₂ } le).2) := by
  refine ⟨?_, rfl, ?_⟩
  · intro c hc
    have h1 : c ∈ sortByLe le (store.filter (matchesQuery orgId q)) :=
      List.drop_subset _ _ (List.take_subset _ _ hc)
    have h2 : c ∈ store.filter (matchesQuery orgId q) := (mem_sortByLe le c _).mp h1
    have h3 := (List.mem_filter.mp h2).2
    simp only [matchesQuery, hs, Bool.and_eq_true] at h3
    exact h3.2
  · intro p₁ l₁ p₂ l₂
    rfl

/-- C8 witness: in a two-candidate store only `Ali Reza` matches `ali`, and
the total equals the full filtered count. -/
theorem list_search_spec_witness :
    qEx.search = some "ali" ∧
    (listCandidates storeEx 10 qEx leEx).2 =
      (storeEx.filter (matchesQuery 10 qEx)).length :=
  ⟨by decide, (list_search_spec storeEx 10 qEx leEx "ali" (by decide)).2.1⟩

/-- C9: when every candidate carrying the requested id belongs to a tenant
other than the requesting one, the get handler's response is byte-for-byte
the response produced on a store from which that id has been erased
entirely, and it is the fixed 404 body — the response reveals nothing
about existence in another tenant. -/
theorem get_cross_tenant_indistinguishable (store : List Candidate)
    (orgA cid : Nat)
    (h : ∀ c ∈ store, c.id = cid → c.organization ≠ orgA) :
    handleGetCandidate store orgA cid =
      handleGetCandidate (store.filter (fun c => !(c.id == cid))) orgA cid ∧
    handleGetCandidate store orgA cid =
      { status := 404, success := false, message := some "متقاضی یافت نشد",
        data := none } := by
  have h1 : findCandidate store orgA cid = none := by
    rw [findCandidate, List.find?_eq_none]
    intro c hc
    simp only [Bool.and_eq_true, beq_iff_eq, not_and]
    intro hid
    exact fun horg => h c hc hid horg
  have h2 : findCandidate (store.filter (fun c => !(c.id == cid))) orgA cid = none := by
    rw [findCandidate, List.find?_eq_none]
    intro c hc
    have h3 := (List.mem_filter.mp hc).2
    simp only [Bool.and_eq_true, beq_iff_eq, not_and]
    intro hid
    simp [hid] at h3
  constructor
  · rw [handleGetCandidate, handleGetCandidate, h1, h2]
  · rw [handleGetCandidate, h1]

/-- C9 witness: requesting id 5 as tenant 10 when id 5 belongs to tenant 99
yields the fixed 404 response. -/
theorem get_cross_tenant_witness :
    handleGetCandidate [cOtherTenant] 10 5 =
      { status := 404, success := false, message := some "متقاضی یافت نشد",
        data := none } :=
  (get_cross_tenant_indistinguishable [cOtherTenant] 10 5 (by decide)).2
